import Mathlib

/-!
# Product-management system: image-processing consumer and cache invalidation

A shallow embedding of `queue/consumer.go`, `queue/producer.go` and the
`PUT`/`DELETE /products/:id` handlers of `cmd/api/main.go`.

* A Go `string` / `[]byte` is a finite sequence of bytes: `GoString = List Nat`
  (every byte is a number below 256; nothing below depends on that bound, so
  the theorems hold for every byte sequence, valid UTF-8 or not).
* Effects (database, broker, cache, HTTP response) are explicit state passing
  over a world that also records the calls made, in order.
* Outcomes chosen by the environment (does the n-th `Exec` fail, does the
  n-th `Publish` fail, does `Del` fail) are fields of the world, so a theorem
  quantified over the world covers every behaviour of the collaborators.
* Calls of the logger change nothing the properties speak about and are left
  out of the consumer's trace; the errors `Ack` and `Nack` return are dropped
  by the source, so the two calls return only the new world.
* The Go library (`strings`), PostgreSQL's `array_append`, the AMQP broker and
  Redis are not part of the repository; their functions are modelled after
  their documented behaviour, as far as the source uses them.
-/

namespace PMS

/-! ## Go strings -/

/-- A Go string or byte slice: its bytes in order. -/
abbrev GoString := List Nat

/-- The bytes of an ASCII literal. -/
def str (s : String) : GoString := s.toList.map Char.toNat

/-- Go `strings.Index(s, substr)`: the position of the first instance of
`substr` in `s`, or `none` where Go returns `-1`. -/
def Index : GoString → GoString → Option Nat
  | [], substr => if substr.isPrefixOf [] then some 0 else none
  | c :: s, substr =>
    if substr.isPrefixOf (c :: s) then some 0
    else (Index s substr).map (· + 1)

/-- Go `strings.Contains(s, substr)`, which is `Index(s, substr) >= 0`. -/
def Contains (s substr : GoString) : Bool := (Index s substr).isSome

/-- Go `strings.Replace(s, old, new, n)` for a non-empty `old` and `n ≥ 0`:
the loop of the library, `n` rounds of "find the next instance of `old` after
`start`, copy what precedes it, write `new`", stopping early when no instance
is left (the library first caps `n` by `Count(s, old)`). -/
def Replace (s old new : GoString) : Nat → GoString
  | 0 => s
  | n + 1 =>
    match Index s old with
    | none => s
    | some j => s.take j ++ new ++ Replace (s.drop (j + old.length)) old new n

/-! ## Errors -/

/-- A Go `error` value, identified by its message. -/
structure Error where
  msg : GoString
deriving DecidableEq, Repr

/-- Go `errors.New(text)`. -/
def errorsNew (text : GoString) : Error := ⟨text⟩

/-! ## Database: the `products` table as the consumer sees it -/

/-- A row of `products`: its `id` and its `compressed_product_images` array
(the other columns are not touched by the consumer). -/
structure Product where
  id : Nat
  compressed_product_images : List GoString
deriving DecidableEq, Repr

/-- PostgreSQL `array_append(arr, elem)`: `elem` is added at the end. -/
def array_append (arr : List GoString) (elem : GoString) : List GoString :=
  arr ++ [elem]

/-- The statement run by `updateCompressedImagesInDB`,
`UPDATE products SET compressed_product_images =
 array_append(compressed_product_images, $1) WHERE id = $2`. -/
def updateAppend (rows : List Product) (arg1 : GoString) (arg2 : Nat) :
    List Product :=
  rows.map fun p =>
    if p.id = arg2 then
      { p with compressed_product_images :=
                 array_append p.compressed_product_images arg1 }
    else p

/-- The `compressed_product_images` of the row with the given id (empty when
there is no such row). -/
def imagesOf (rows : List Product) (id : Nat) : List GoString :=
  match rows.find? (fun p => p.id = id) with
  | some p => p.compressed_product_images
  | none => []

/-! ## Broker: queues, default exchange, dead-lettering -/

/-- The `amqp.Table` arguments a queue is declared with. -/
structure QueueArgs where
  deadLetterExchange : Option GoString
  deadLetterRoutingKey : Option GoString
  messageTTL : Option Nat
deriving DecidableEq, Repr

/-- A declared queue and the messages ready in it, oldest first. -/
structure Queue where
  name : GoString
  durable : Bool
  args : QueueArgs
  messages : List GoString
deriving DecidableEq, Repr

/-- The broker: its declared queues, in declaration order. -/
structure Broker where
  queues : List Queue
deriving DecidableEq, Repr

/-- The messages ready in the queue of that name. -/
def Broker.messagesOf (b : Broker) (name : GoString) : List GoString :=
  match b.queues.find? (fun q => q.name = name) with
  | some q => q.messages
  | none => []

/-- Enqueue a message at the tail of the queue of that name (no effect when
no such queue is declared). -/
def Broker.enqueue (b : Broker) (name body : GoString) : Broker :=
  { queues := b.queues.map fun q =>
      if q.name = name then { q with messages := q.messages ++ [body] } else q }

/-- Routing of a published message. Only the default exchange `""` exists in
this program: it routes to the queue whose name is the routing key. A message
for any other exchange, or for a key naming no queue, is dropped
(`mandatory = false`). -/
def Broker.route (b : Broker) (exchange key body : GoString) : Broker :=
  if exchange = [] then b.enqueue key body else b

/-- Dead-lettering of a message that leaves the queue `src` by rejection
without requeue or by expiry: it is republished to the queue's
`x-dead-letter-exchange` under its `x-dead-letter-routing-key` (its own
routing key, the queue name here, when none is set), and discarded when the
queue has no dead-letter exchange. -/
def Broker.deadLetter (b : Broker) (src body : GoString) : Broker :=
  match b.queues.find? (fun q => q.name = src) with
  | none => b
  | some q =>
    match q.args.deadLetterExchange with
    | none => b
    | some x => b.route x (q.args.deadLetterRoutingKey.getD src) body

/-- Library `Channel.QueueDeclare(name, durable, false, false, false, args)`: creates
the queue when absent, succeeds without change when it exists with the same
properties, and fails (`none`) when it exists with different ones. -/
def Broker.QueueDeclare (b : Broker) (name : GoString) (durable : Bool)
    (args : QueueArgs) : Option Broker :=
  match b.queues.find? (fun q => q.name = name) with
  | none => some { queues := b.queues ++ [⟨name, durable, args, []⟩] }
  | some q => if q.durable = durable ∧ q.args = args then some b else none

/-- Source `InitQueue` after connection and channel are open: the three
declarations, in the order of the source; `none` is a `Logger.Fatal`. -/
def InitQueue (b : Broker) : Option Broker := do
  -- Declare Dead-Letter Queue
  let b ← b.QueueDeclare (str "image_processing_dlx") true ⟨none, none, none⟩
  -- Declare Retry Queue with DLX binding
  let b ← b.QueueDeclare (str "image_processing_retry") true
    ⟨some (str ""), some (str "image_processing"), some 10000⟩
  -- Declare Main Queue with DLX binding
  let b ← b.QueueDeclare (str "image_processing") true
    ⟨some (str ""), some (str "image_processing_dlx"), none⟩
  pure b

/-! ## The consumer's world -/

/-- An `amqp.Delivery`: the fields the consumer reads. -/
structure Delivery where
  DeliveryTag : Nat
  Body : GoString
deriving DecidableEq, Repr

/-- An `amqp.Publishing`: the fields the consumer sets. -/
structure Publishing where
  ContentType : GoString
  Body : GoString
deriving DecidableEq, Repr

/-- The calls the consumer makes on its collaborators, and the two points of
its own control flow that the properties speak about (taking a delivery from
the channel, entering `processImage`). -/
inductive Event where
  | received (msg : Delivery)
  | processImage (imageURL : GoString)
  | exec (arg1 : GoString) (arg2 : Nat)
  | publish (exchange key : GoString) (mandatory immediate : Bool)
      (msg : Publishing)
  | ack (tag : Nat) (multiple : Bool)
  | nack (tag : Nat) (multiple requeue : Bool)
  | fatal
deriving DecidableEq, Repr

/-- Everything the consumer acts on. `execOutcome n` and `publishOutcome n`
are the results the database and the broker give to the `n`-th `Exec` and the
`n`-th `Publish` (`none` is a nil error); `trace` lists the calls so far,
oldest first. -/
structure World where
  products : List Product
  broker : Broker
  execOutcome : Nat → Option Error
  publishOutcome : Nat → Option Error
  execCalls : Nat
  publishCalls : Nat
  trace : List Event

/-- Record a call. -/
def World.emit (w : World) (e : Event) : World :=
  { w with trace := w.trace ++ [e] }

/-! ## `queue/consumer.go` -/

/-- Source `updateCompressedImagesInDB`: one `db.DB.Exec` of the
`array_append` statement with arguments `compressedImageURL` and `1`; the
error of `Exec` is returned. A failed statement changes no row. -/
def updateCompressedImagesInDB (compressedImageURL : GoString) (w : World) :
    Option Error × World :=
  let err := w.execOutcome w.execCalls
  let w := { w.emit (.exec compressedImageURL 1) with
             execCalls := w.execCalls + 1 }
  match err with
  | none =>
    (none, { w with products := updateAppend w.products compressedImageURL 1 })
  | some e => (some e, w)

/-- Source `processImage`. -/
def processImage (imageURL : GoString) (w : World) : Option Error × World :=
  let w := w.emit (.processImage imageURL)
  if Contains imageURL (str "fail") then
    (some (errorsNew (str "simulated processing failure")), w)
  else
    let compressedImageURL := Replace imageURL (str ".") (str "-compressed.") 1
    updateCompressedImagesInDB compressedImageURL w

/-- Library `amqp.ErrClosed`, the error of every call on a closed channel. -/
def ErrClosed : Error := errorsNew (str "channel/connection is not open")

/-- Is the consumer's channel closed? `Publish` fails only when the channel
or its connection is closed or breaks, and a closed channel is never
reopened: the channel is closed as soon as one `Publish` so far has failed. -/
def World.channelClosed (w : World) : Bool :=
  (List.range w.publishCalls).any fun k => (w.publishOutcome k).isSome

/-- Library `Channel.Publish`: on a closed channel it returns `ErrClosed`;
otherwise the environment decides. On success the broker routes the message;
on error nothing is enqueued. -/
def ChannelPublish (exchange key : GoString) (mandatory immediate : Bool)
    (msg : Publishing) (w : World) : Option Error × World :=
  let err := if w.channelClosed then some ErrClosed
             else w.publishOutcome w.publishCalls
  let w := { w.emit (.publish exchange key mandatory immediate msg) with
             publishCalls := w.publishCalls + 1 }
  match err with
  | none => (none, { w with broker := w.broker.route exchange key msg.Body })
  | some e => (some e, w)

/-- Library `msg.Ack(multiple)`: the broker forgets the message (it left the
ready list when it was delivered). On a closed channel the call returns an
error, which the source drops, and the broker is told nothing. -/
def Delivery.Ack (msg : Delivery) (multiple : Bool) (w : World) : World :=
  w.emit (.ack msg.DeliveryTag multiple)

/-- Library `msg.Nack(multiple, requeue)` on a delivery taken from
`queueName`. On a closed channel the call returns an error, which the source
drops, and the broker is told nothing: the message is neither requeued nor
dead-lettered by this call. On an open channel, with `requeue` the message
goes back to the head of its queue, without it the message is dead-lettered
from that queue. -/
def Delivery.Nack (queueName : GoString) (msg : Delivery)
    (multiple requeue : Bool) (w : World) : World :=
  let w := w.emit (.nack msg.DeliveryTag multiple requeue)
  if w.channelClosed then w
  else if requeue then
    { w with broker :=
        { queues := w.broker.queues.map fun q =>
            if q.name = queueName then
              { q with messages := msg.Body :: q.messages }
            else q } }
  else
    { w with broker := w.broker.deadLetter queueName msg.Body }

/-- The body of the `for msg := range msgs` loop of `StartConsumer`. -/
def handleDelivery (queueName : GoString) (msg : Delivery) (w : World) :
    World :=
  let w := w.emit (.received msg)
  -- Process the image
  match processImage msg.Body w with
  | (some _, w) =>
    -- Publish to the retry queue; an error of Publish is only logged
    let (_, w) := ChannelPublish (str "") (str "image_processing_retry")
      false false ⟨str "text/plain", msg.Body⟩ w
    -- Reject the message without requeueing
    Delivery.Nack queueName msg false false w
  | (none, w) =>
    -- Acknowledge successful processing
    Delivery.Ack msg false w

/-- Source `StartConsumer`: `consumeErr` is the error of `Channel.Consume`
(`Logger.Fatal` ends the process), `msgs` the deliveries the channel yields. -/
def StartConsumer (queueName : GoString) (consumeErr : Option Error)
    (msgs : List Delivery) (w : World) : World :=
  match consumeErr with
  | some _ => w.emit .fatal
  | none => msgs.foldl (fun w msg => handleDelivery queueName msg w) w

/-! ## Broker and consumer together -/

/-- The three queues as `InitQueue` declares them, holding the given ready
messages. -/
def topology (main retry dlx : List GoString) : Broker :=
  { queues :=
      [ ⟨str "image_processing_dlx", true, ⟨none, none, none⟩, dlx⟩,
        ⟨str "image_processing_retry", true,
          ⟨some (str ""), some (str "image_processing"), some 10000⟩, retry⟩,
        ⟨str "image_processing", true,
          ⟨some (str ""), some (str "image_processing_dlx"), none⟩, main⟩ ] }

/-- The broker takes the oldest ready message of a queue off the ready list
to deliver it. -/
def Broker.deliver (b : Broker) (queueName : GoString) :
    Option (GoString × Broker) :=
  match b.messagesOf queueName with
  | [] => none
  | body :: _ =>
    some (body, { queues := b.queues.map fun q =>
      if q.name = queueName then { q with messages := q.messages.tail }
      else q })

/-- Expiry of a queue's `x-message-ttl`: every message ready in it is
dead-lettered from it, oldest first. A queue without a TTL keeps its
messages. -/
def Broker.expire (b : Broker) (queueName : GoString) : Broker :=
  match b.queues.find? (fun q => q.name = queueName) with
  | none => b
  | some q =>
    match q.args.messageTTL with
    | none => b
    | some _ =>
      q.messages.foldl (fun b m => b.deadLetter queueName m)
        { queues := b.queues.map fun q =>
            if q.name = queueName then { q with messages := [] } else q }

/-- One round of the running system: the consumer started by `main` on
`"image_processing"` gets the next delivery and handles it, then the retry
queue's TTL runs out. -/
def retryCycle (tag : Nat) (w : World) : World :=
  match w.broker.deliver (str "image_processing") with
  | none => w
  | some (body, b) =>
    let w := handleDelivery (str "image_processing") ⟨tag, body⟩
      { w with broker := b }
    { w with broker := w.broker.expire (str "image_processing_retry") }

/-- The first `n` rounds; round `k` carries delivery tag `k`. -/
def retryCycles : Nat → World → World
  | 0, w => w
  | n + 1, w => retryCycle (n + 1) (retryCycles n w)

/-- Is the event a `Publish` to the retry queue? -/
def Event.isRetryPublish : Event → Bool
  | .publish _ key _ _ _ => key = str "image_processing_retry"
  | _ => false

/-- Is the event one of the calls that settle a delivery, `Ack` or `Nack`? -/
def Event.isSettle : Event → Bool
  | .ack _ _ => true
  | .nack _ _ _ => true
  | _ => false

/-- Is the event the loop taking a delivery? -/
def Event.isReceived : Event → Bool
  | .received _ => true
  | _ => false

/-- Is the event an entry into `processImage`? -/
def Event.isProcessImage : Event → Bool
  | .processImage _ => true
  | _ => false

/-- Is the event a `Publish`? -/
def Event.isPublish : Event → Bool
  | .publish _ _ _ _ _ => true
  | _ => false

/-! ## `cmd/api/main.go`: the write path and its cache invalidation -/

/-- The two mutations of the write path. -/
inductive Statement where
  | updateProducts
  | deleteFromProducts
deriving DecidableEq, Repr

/-- The calls a handler makes, in order. -/
inductive ApiEvent where
  | dbExec (stmt : Statement) (id : GoString)
  | redisDel (key : GoString)
  | logPrintf (text : GoString)
  | respond (status : Nat) (text : GoString)
deriving DecidableEq, Repr

/-- What a write handler acts on: the Redis cache (key and value pairs), the
result the database gives to the handler's `Exec`, the result Redis gives to
its `Del`, and the calls made so far. -/
structure ApiWorld where
  cache : List (GoString × GoString)
  execErr : Option Error
  delErr : Option Error
  trace : List ApiEvent
deriving DecidableEq, Repr

/-- Record a call. -/
def ApiWorld.emit (w : ApiWorld) (e : ApiEvent) : ApiWorld :=
  { w with trace := w.trace ++ [e] }

/-- Library `redisClient.Get(ctx, key)`: the cached value, `none` on a miss. -/
def redisGet (key : GoString) (w : ApiWorld) : Option GoString :=
  (w.cache.find? (fun kv => kv.1 = key)).map (·.2)

/-- Library `redisClient.Del(ctx, key).Err()`: on success the key is gone; a
failed command leaves the cache as it was. -/
def redisDel (key : GoString) (w : ApiWorld) : Option Error × ApiWorld :=
  let w := w.emit (.redisDel key)
  match w.delErr with
  | none => (none, { w with cache := w.cache.filter (fun kv => kv.1 ≠ key) })
  | some e => (some e, w)

/-- Handler of `PUT /products/:id`; `bindErr` is the error of `c.BindJSON`. -/
def putProduct (productID : GoString) (bindErr : Option Error)
    (w : ApiWorld) : ApiWorld :=
  match bindErr with
  | some _ => w.emit (.respond 400 (str "Invalid request"))
  | none =>
    let w := w.emit (.dbExec .updateProducts productID)
    match w.execErr with
    | some _ => w.emit (.respond 500 (str "Failed to update product"))
    | none =>
      -- Invalidate the Redis cache for the updated product
      let redisKey := str "product:" ++ productID
      match redisDel redisKey w with
      | (some _, w) =>
        (w.emit (.logPrintf (str "Failed to invalidate cache for product"))).emit
          (.respond 200 (str "Product updated successfully"))
      | (none, w) => w.emit (.respond 200 (str "Product updated successfully"))

/-- Handler of `DELETE /products/:id`. -/
def deleteProduct (productID : GoString) (w : ApiWorld) : ApiWorld :=
  let w := w.emit (.dbExec .deleteFromProducts productID)
  match w.execErr with
  | some _ => w.emit (.respond 500 (str "Failed to delete product"))
  | none =>
    -- Invalidate the Redis cache for the deleted product
    let redisKey := str "product:" ++ productID
    match redisDel redisKey w with
    | (some _, w) =>
      (w.emit (.logPrintf (str "Failed to invalidate cache for product"))).emit
        (.respond 200 (str "Product deleted successfully"))
    | (none, w) => w.emit (.respond 200 (str "Product deleted successfully"))

/-- A world in which every collaborator succeeds: product 1 exists with no
compressed image yet, the queues are declared and empty. -/
def quietWorld : World :=
  { products := [⟨1, []⟩], broker := topology [] [] [],
    execOutcome := fun _ => none, publishOutcome := fun _ => none,
    execCalls := 0, publishCalls := 0, trace := [] }


/-- A world whose store refuses every `Exec`; everything else as in
`quietWorld`. -/
def brokenStoreWorld : World :=
  { quietWorld with
    execOutcome := fun _ => some (errorsNew (str "connection refused")) }

/-- An API world in which product `"7"` is cached, the database accepts the
mutation and Redis refuses `Del`. -/
def staleWorld : ApiWorld :=
  { cache := [(str "product:7", str "cached")], execErr := none,
    delErr := some (errorsNew (str "connection refused")), trace := [] }

/-- An API world in which product `"7"` is cached and every collaborator
succeeds. -/
def freshWorld : ApiWorld :=
  { cache := [(str "product:7", str "cached")], execErr := none,
    delErr := none, trace := [] }

/-- The quiet world with the always-failing work item `"fail.jpg"` ready in
the main queue. -/
def failWorld : World :=
  { quietWorld with broker := topology [str "fail.jpg"] [] [] }

/-! # Properties -/

/-! ## Go strings -/

/-- Go `Index` finds an instance exactly when there is one. -/
theorem Index_isSome_iff (s sub : GoString) : (Index s sub).isSome = true ↔ sub <:+: s := by
  induction s with
  | nil =>
    cases sub with
    | nil => simp [Index]
    | cons a t => simp [Index, List.isPrefixOf]
  | cons c s ih =>
    unfold Index
    by_cases hp : sub.isPrefixOf (c :: s) = true
    · simp only [hp, if_true, Option.isSome_some, true_iff]
      exact (List.isPrefixOf_iff_prefix.mp hp).isInfix
    · simp only [hp, if_false, Bool.false_eq_true]
      rw [Option.isSome_map', ih, List.infix_cons_iff]
      constructor
      · exact Or.inr
      · rintro (h | h)
        · exact absurd (List.isPrefixOf_iff_prefix.mpr h) hp
        · exact h

/-- Go `Contains` is the substring relation. -/
theorem Contains_iff (s sub : GoString) : Contains s sub = true ↔ sub <:+: s :=
  Index_isSome_iff s sub

/-- Go `Index` of a one-byte pattern that does not occur. -/
theorem Index_singleton_none (c : Nat) (s : GoString) (h : c ∉ s) : Index s [c] = none := by
  have := Index_isSome_iff s [c]
  cases hI : Index s [c] with
  | none => rfl
  | some j =>
    rw [hI] at this
    have hin : [c] <:+: s := this.mp rfl
    exact absurd (hin.subset (List.mem_singleton_self c)) h

/-- Go `Index` of a one-byte pattern is the position of its first
occurrence. -/
theorem Index_singleton_first (c : Nat) (pre post : GoString) (h : c ∉ pre) :
    Index (pre ++ c :: post) [c] = some pre.length := by
  induction pre with
  | nil => simp [Index, List.isPrefixOf]
  | cons a pre ih =>
    have hne : ¬ c = a := fun e => h (by simp [e])
    have hc : c ∉ pre := fun e => h (List.mem_cons_of_mem _ e)
    simp [Index, List.isPrefixOf, hne, ih hc]

/-- Go `Replace` with `n = 1` rewrites the first occurrence only. -/
theorem Replace_first (new pre post : GoString) (c : Nat) (h : c ∉ pre) :
    Replace (pre ++ [c] ++ post) [c] new 1 = pre ++ new ++ post := by
  have hI := Index_singleton_first c pre post h
  simp only [List.append_assoc, List.singleton_append]
  simp [Replace, hI]

/-- Go `Replace` leaves a string without the pattern as it is. -/
theorem Replace_absent (new s : GoString) (c : Nat) (h : c ∉ s) :
    Replace s [c] new 1 = s := by
  simp [Replace, Index_singleton_none c s h]

/-- A one-byte string is a substring exactly when its byte occurs. -/
theorem singleton_infix_iff_mem (c : Nat) (l : GoString) : [c] <:+: l ↔ c ∈ l := by
  constructor
  · intro h
    exact h.subset (List.mem_singleton_self c)
  · intro h
    obtain ⟨s, t, rfl⟩ := List.append_of_mem h
    exact ⟨s, t, by simp⟩

/-- C1. For every payload that does not contain the marker `"fail"`, when the
store's `Exec` returns no error, `processImage` returns no error and makes
exactly one store call, the append of an artifact to product 1; the artifact
is the payload with its first `"."` replaced by `"-compressed."` and nothing
else changed (a payload without `"."` is passed on as it is). -/
theorem processImage_success (imageURL : GoString) (w : World)
    (hmarker : ¬ str "fail" <:+: imageURL)
    (hstore : w.execOutcome w.execCalls = none) :
    ∃ artifact : GoString,
      (processImage imageURL w).1 = none ∧
      (processImage imageURL w).2.trace
        = w.trace ++ [.processImage imageURL, .exec artifact 1] ∧
      (processImage imageURL w).2.products
        = updateAppend w.products artifact 1 ∧
      (∀ pre post : GoString, imageURL = pre ++ str "." ++ post →
        ¬ str "." <:+: pre → artifact = pre ++ str "-compressed." ++ post) ∧
      (¬ str "." <:+: imageURL → artifact = imageURL) := by
  have hc : Contains imageURL (str "fail") = false := by
    cases h : Contains imageURL (str "fail") with
    | false => rfl
    | true => exact absurd ((Contains_iff _ _).mp h) hmarker
  have hdot : str "." = [46] := rfl
  refine ⟨Replace imageURL (str ".") (str "-compressed.") 1, ?_, ?_, ?_, ?_, ?_⟩
  · simp [processImage, updateCompressedImagesInDB, hc, World.emit, hstore]
  · simp [processImage, updateCompressedImagesInDB, hc, World.emit, hstore]
  · simp [processImage, updateCompressedImagesInDB, hc, World.emit, hstore]
  · intro pre post hsplit hpre
    rw [hdot] at hsplit hpre ⊢
    rw [singleton_infix_iff_mem] at hpre
    rw [hsplit]
    exact Replace_first _ pre post 46 hpre
  · intro h
    rw [hdot] at h ⊢
    rw [singleton_infix_iff_mem] at h
    exact Replace_absent _ imageURL 46 h

/-- Witness of C1 at the payload `"a.jpg"`: no error, and the one append the
store receives is of `"a-compressed.jpg"`. -/
theorem processImage_success_witness :
    (processImage (str "a.jpg") quietWorld).1 = none ∧
    (processImage (str "a.jpg") quietWorld).2.trace
      = [.processImage (str "a.jpg"), .exec (str "a-compressed.jpg") 1] := by
  obtain ⟨artifact, hok, htrace, _, hfirst, _⟩ :=
    processImage_success (str "a.jpg") quietWorld (by decide) (by decide)
  have hart : artifact = str "a" ++ str "-compressed." ++ str "jpg" :=
    hfirst (str "a") (str "jpg") (by decide) (by decide)
  subst hart
  exact ⟨hok, htrace⟩

/-- C2. For every payload that contains the marker `"fail"`, `processImage`
returns the simulated failure, makes no store call and changes no row, and
its result is the same in every world (any store state, any store behaviour,
any repetition). -/
theorem processImage_failure (imageURL : GoString) (w w' : World)
    (hmarker : str "fail" <:+: imageURL) :
    (processImage imageURL w).1
      = some (errorsNew (str "simulated processing failure")) ∧
    (processImage imageURL w).2.trace = w.trace ++ [.processImage imageURL] ∧
    (processImage imageURL w).2.products = w.products ∧
    (processImage imageURL w).2.execCalls = w.execCalls ∧
    (processImage imageURL w').1 = (processImage imageURL w).1 := by
  have hc : Contains imageURL (str "fail") = true := (Contains_iff _ _).mpr hmarker
  simp [processImage, hc, World.emit]

/-- Witness of C2 at the payload `"fail.jpg"`, in a world whose store works
and in one whose store is broken. -/
theorem processImage_failure_witness :
    (processImage (str "fail.jpg") quietWorld).1
      = some (errorsNew (str "simulated processing failure")) ∧
    (processImage (str "fail.jpg") quietWorld).2.trace
      = quietWorld.trace ++ [.processImage (str "fail.jpg")] ∧
    (processImage (str "fail.jpg") quietWorld).2.products
      = quietWorld.products ∧
    (processImage (str "fail.jpg") quietWorld).2.execCalls
      = quietWorld.execCalls ∧
    (processImage (str "fail.jpg") brokenStoreWorld).1
      = (processImage (str "fail.jpg") quietWorld).1 :=
  processImage_failure (str "fail.jpg") quietWorld brokenStoreWorld (by decide)

/-! ## The consumer loop -/

/-- The calls so far after a `Publish`, whatever its result. -/
theorem ChannelPublish_trace (exchange key : GoString)
    (mandatory immediate : Bool) (msg : Publishing) (w : World) :
    (ChannelPublish exchange key mandatory immediate msg w).2.trace
      = w.trace ++ [.publish exchange key mandatory immediate msg] := by
  unfold ChannelPublish World.emit
  simp only
  split <;> rfl

/-- The calls so far after a `Nack`, whatever the state of the channel. -/
theorem Nack_trace (queueName : GoString) (msg : Delivery)
    (multiple requeue : Bool) (w : World) :
    (Delivery.Nack queueName msg multiple requeue w).trace
      = w.trace ++ [.nack msg.DeliveryTag multiple requeue] := by
  unfold Delivery.Nack World.emit
  simp only
  split
  · rfl
  · split <;> rfl

/-- The loop iteration after a failed `processImage`: retry publish, then
nack without requeue. -/
theorem handleDelivery_of_failed (queueName : GoString) (msg : Delivery)
    (w : World) (e : Error) (w1 : World)
    (h : processImage msg.Body (w.emit (.received msg)) = (some e, w1)) :
    handleDelivery queueName msg w =
      Delivery.Nack queueName msg false false
        (ChannelPublish (str "") (str "image_processing_retry") false false
          ⟨str "text/plain", msg.Body⟩ w1).2 := by
  unfold handleDelivery
  simp only [h]

/-- The world `processImage` leaves when the store refuses the append: one
more `Exec`, the same rows, broker and publish history. -/
theorem processImage_storeError (imageURL : GoString) (w : World) (e : Error)
    (hc : Contains imageURL (str "fail") = false)
    (hs : w.execOutcome w.execCalls = some e) :
    ∃ w1 : World, processImage imageURL w = (some e, w1) ∧
      w1.trace = w.trace ++ [.processImage imageURL,
        .exec (Replace imageURL (str ".") (str "-compressed.") 1) 1] ∧
      w1.broker = w.broker ∧ w1.publishOutcome = w.publishOutcome ∧
      w1.publishCalls = w.publishCalls := by
  refine ⟨(processImage imageURL w).2, ?_, ?_, ?_, ?_, ?_⟩ <;>
    simp [processImage, updateCompressedImagesInDB, World.emit, hc, hs]

/-- The calls of one loop iteration for a body with the failure marker. -/
theorem handleDelivery_marker (queueName : GoString) (msg : Delivery) (w : World)
    (hc : Contains msg.Body (str "fail") = true) :
    (handleDelivery queueName msg w).trace = w.trace ++
      [.received msg, .processImage msg.Body,
       .publish (str "") (str "image_processing_retry") false false
         ⟨str "text/plain", msg.Body⟩,
       .nack msg.DeliveryTag false false] := by
  have hproc : processImage msg.Body (w.emit (.received msg))
      = (some (errorsNew (str "simulated processing failure")),
         (w.emit (.received msg)).emit (.processImage msg.Body)) := by
    simp [processImage, hc]
  rw [handleDelivery_of_failed queueName msg w _ _ hproc, Nack_trace,
    ChannelPublish_trace]
  simp [World.emit]

/-- The calls of one loop iteration when the store refuses the append. -/
theorem handleDelivery_storeError (queueName : GoString) (msg : Delivery) (w : World)
    (e : Error) (hc : Contains msg.Body (str "fail") = false)
    (hs : w.execOutcome w.execCalls = some e) :
    (handleDelivery queueName msg w).trace = w.trace ++
      [.received msg, .processImage msg.Body,
       .exec (Replace msg.Body (str ".") (str "-compressed.") 1) 1,
       .publish (str "") (str "image_processing_retry") false false
         ⟨str "text/plain", msg.Body⟩,
       .nack msg.DeliveryTag false false] := by
  obtain ⟨w1, hproc, htrace, -⟩ :=
    processImage_storeError msg.Body (w.emit (.received msg)) e hc hs
  rw [handleDelivery_of_failed queueName msg w _ _ hproc, Nack_trace,
    ChannelPublish_trace, htrace]
  simp [World.emit]

/-- The calls of one loop iteration when the append is stored. -/
theorem handleDelivery_stored (queueName : GoString) (msg : Delivery) (w : World)
    (hc : Contains msg.Body (str "fail") = false)
    (hs : w.execOutcome w.execCalls = none) :
    (handleDelivery queueName msg w).trace = w.trace ++
      [.received msg, .processImage msg.Body,
       .exec (Replace msg.Body (str ".") (str "-compressed.") 1) 1,
       .ack msg.DeliveryTag false] := by
  unfold handleDelivery processImage updateCompressedImagesInDB Delivery.Ack World.emit
  simp [hc, hs]

/-- The error `processImage` returns, in closed form. -/
theorem processImage_fst (imageURL : GoString) (w : World) :
    (processImage imageURL w).1 =
      if Contains imageURL (str "fail") = true then
        some (errorsNew (str "simulated processing failure"))
      else w.execOutcome w.execCalls := by
  unfold processImage updateCompressedImagesInDB World.emit
  by_cases hc : Contains imageURL (str "fail") = true
  · simp [hc]
  · simp only [hc]
    cases h : w.execOutcome w.execCalls <;> simp [h]

/-- Shape of one loop iteration after a failed `processImage`. -/
theorem handleDelivery_failed (queueName : GoString) (msg : Delivery) (w : World)
    (hfail : (processImage msg.Body w).1 ≠ none) :
    ∃ mid : List Event,
      (handleDelivery queueName msg w).trace = w.trace ++
        (.received msg :: .processImage msg.Body :: mid ++
          [.publish (str "") (str "image_processing_retry") false false
             ⟨str "text/plain", msg.Body⟩,
           .nack msg.DeliveryTag false false]) ∧
      ∀ x ∈ mid, x.isPublish = false ∧ x.isSettle = false ∧
        x.isReceived = false ∧ x.isProcessImage = false := by
  rw [processImage_fst] at hfail
  by_cases hc : Contains msg.Body (str "fail") = true
  · exact ⟨[], by simpa using handleDelivery_marker queueName msg w hc, by simp⟩
  · simp only [hc] at hfail
    have hc' : Contains msg.Body (str "fail") = false := by simpa using hc
    obtain ⟨e, he⟩ := Option.ne_none_iff_exists'.mp hfail
    refine ⟨[.exec (Replace msg.Body (str ".") (str "-compressed.") 1) 1], ?_, ?_⟩
    · simpa using handleDelivery_storeError queueName msg w e hc' he
    · simp [Event.isPublish, Event.isSettle, Event.isReceived, Event.isProcessImage]

/-- Shape of one loop iteration after a successful `processImage`. -/
theorem handleDelivery_succeeded (queueName : GoString) (msg : Delivery) (w : World)
    (hok : (processImage msg.Body w).1 = none) :
    ∃ mid : List Event,
      (handleDelivery queueName msg w).trace = w.trace ++
        (.received msg :: .processImage msg.Body :: mid ++
          [.ack msg.DeliveryTag false]) ∧
      ∀ x ∈ mid, x.isPublish = false ∧ x.isSettle = false ∧
        x.isReceived = false ∧ x.isProcessImage = false := by
  rw [processImage_fst] at hok
  by_cases hc : Contains msg.Body (str "fail") = true
  · simp [hc] at hok
  · simp only [hc] at hok
    have hc' : Contains msg.Body (str "fail") = false := by simpa using hc
    refine ⟨[.exec (Replace msg.Body (str ".") (str "-compressed.") 1) 1], ?_, ?_⟩
    · simpa using handleDelivery_stored queueName msg w hc' hok
    · simp [Event.isPublish, Event.isSettle, Event.isReceived, Event.isProcessImage]

/-- Every loop iteration starts by taking the delivery and ends with its one
settling call. -/
theorem handleDelivery_segment (queueName : GoString) (msg : Delivery) (w : World) :
    ∃ (mid : List Event) (e : Event),
      (handleDelivery queueName msg w).trace
        = w.trace ++ (.received msg :: (mid ++ [e])) ∧
      (e = .ack msg.DeliveryTag false ∨ e = .nack msg.DeliveryTag false false) ∧
      ∀ x ∈ mid, x.isSettle = false ∧ x.isReceived = false := by
  cases h : (processImage msg.Body w).1 with
  | none =>
    obtain ⟨mid, htr, hmid⟩ := handleDelivery_succeeded queueName msg w h
    refine ⟨.processImage msg.Body :: mid, _, by simpa using htr, Or.inl rfl, ?_⟩
    intro x hx
    rcases List.mem_cons.mp hx with rfl | hx
    · simp [Event.isSettle, Event.isReceived]
    · exact ⟨(hmid x hx).2.1, (hmid x hx).2.2.1⟩
  | some e =>
    obtain ⟨mid, htr, hmid⟩ := handleDelivery_failed queueName msg w (by simp [h])
    refine ⟨.processImage msg.Body :: mid ++
        [.publish (str "") (str "image_processing_retry") false false
          ⟨str "text/plain", msg.Body⟩], _, by simpa using htr, Or.inr rfl, ?_⟩
    intro x hx
    simp only [List.cons_append, List.mem_cons, List.mem_append, List.not_mem_nil,
      or_false] at hx
    rcases hx with rfl | hx | rfl
    · simp [Event.isSettle, Event.isReceived]
    · exact ⟨(hmid x hx).2.1, (hmid x hx).2.2.1⟩
    · simp [Event.isSettle, Event.isReceived]

/-- C3. For every finite sequence of deliveries and every behaviour of the
store and of `Publish`, the calls of the consumer loop split into one segment
per delivery, in order: the segment of a delivery starts when the loop takes
it and ends with its one settling call, `Ack(false)` or `Nack(false, false)`
on that delivery; nothing before that last call in the segment is an `Ack`, a
`Nack` or the taking of another delivery. -/
theorem StartConsumer_settles_once (queueName : GoString) (msgs : List Delivery)
    (w : World) :
    ∃ segs : List (List Event),
      (StartConsumer queueName none msgs w).trace = w.trace ++ segs.flatten ∧
      List.Forall₂
        (fun msg seg => ∃ (mid : List Event) (e : Event),
          seg = .received msg :: (mid ++ [e]) ∧
          (e = .ack msg.DeliveryTag false ∨
            e = .nack msg.DeliveryTag false false) ∧
          ∀ x ∈ mid, x.isSettle = false ∧ x.isReceived = false)
        msgs segs := by
  unfold StartConsumer
  simp only
  induction msgs generalizing w with
  | nil => exact ⟨[], by simp, List.Forall₂.nil⟩
  | cons msg rest ih =>
    obtain ⟨mid, e, htr, he, hmid⟩ := handleDelivery_segment queueName msg w
    obtain ⟨segs, hsegs, hall⟩ := ih (handleDelivery queueName msg w)
    refine ⟨(.received msg :: (mid ++ [e])) :: segs, ?_, ?_⟩
    · rw [List.foldl_cons, hsegs, htr]
      simp
    · exact List.Forall₂.cons ⟨mid, e, rfl, he, hmid⟩ hall

/-- C5. A delivery whose processing fails gets exactly one `Publish`, to the
default exchange with routing key `"image_processing_retry"` and a body equal
to the delivery's body, followed by `Nack(false, false)`, and no `Ack`; a
delivery whose processing succeeds gets no `Publish` and one `Ack(false)`. -/
theorem handleDelivery_outcome (queueName : GoString) (msg : Delivery)
    (w : World) :
    ((processImage msg.Body w).1 ≠ none →
      ∃ mid : List Event,
        (handleDelivery queueName msg w).trace = w.trace ++
          (.received msg :: .processImage msg.Body :: mid ++
            [.publish (str "") (str "image_processing_retry") false false
               ⟨str "text/plain", msg.Body⟩,
             .nack msg.DeliveryTag false false]) ∧
        ∀ x ∈ mid, x.isPublish = false ∧ x.isSettle = false) ∧
    ((processImage msg.Body w).1 = none →
      ∃ mid : List Event,
        (handleDelivery queueName msg w).trace = w.trace ++
          (.received msg :: .processImage msg.Body :: mid ++
            [.ack msg.DeliveryTag false]) ∧
        ∀ x ∈ mid, x.isPublish = false ∧ x.isSettle = false) := by
  constructor
  · intro hfail
    obtain ⟨mid, htr, hmid⟩ := handleDelivery_failed queueName msg w hfail
    exact ⟨mid, htr, fun x hx => ⟨(hmid x hx).1, (hmid x hx).2.1⟩⟩
  · intro hok
    obtain ⟨mid, htr, hmid⟩ := handleDelivery_succeeded queueName msg w hok
    exact ⟨mid, htr, fun x hx => ⟨(hmid x hx).1, (hmid x hx).2.1⟩⟩

/-- Witness of C5: the failing delivery `"fail.jpg"` and the succeeding
delivery `"a.jpg"` in the quiet world. -/
theorem handleDelivery_outcome_witness :
    (∃ mid : List Event,
      (handleDelivery (str "image_processing") ⟨1, str "fail.jpg"⟩
          quietWorld).trace = quietWorld.trace ++
        (.received ⟨1, str "fail.jpg"⟩ :: .processImage (str "fail.jpg") ::
          mid ++
          [.publish (str "") (str "image_processing_retry") false false
             ⟨str "text/plain", str "fail.jpg"⟩,
           .nack 1 false false]) ∧
      ∀ x ∈ mid, x.isPublish = false ∧ x.isSettle = false) ∧
    (∃ mid : List Event,
      (handleDelivery (str "image_processing") ⟨2, str "a.jpg"⟩
          quietWorld).trace = quietWorld.trace ++
        (.received ⟨2, str "a.jpg"⟩ :: .processImage (str "a.jpg") :: mid ++
          [.ack 2 false]) ∧
      ∀ x ∈ mid, x.isPublish = false ∧ x.isSettle = false) :=
  ⟨(handleDelivery_outcome (str "image_processing") ⟨1, str "fail.jpg"⟩
      quietWorld).1 (by decide),
   (handleDelivery_outcome (str "image_processing") ⟨2, str "a.jpg"⟩
      quietWorld).2 (by decide)⟩

/-- C6. For a payload without the marker, when the store's `Exec` returns an
error `e`, `processImage` returns that same `e` and no row changes; the loop
then does what it does for a payload with the marker: one `Publish` of the
body to the retry queue, one `Nack(false, false)`, no `Ack`. -/
theorem handleDelivery_store_failure (queueName : GoString) (msg : Delivery)
    (w : World) (e : Error)
    (hmarker : ¬ str "fail" <:+: msg.Body)
    (hstore : w.execOutcome w.execCalls = some e) :
    (processImage msg.Body w).1 = some e ∧
    (processImage msg.Body w).2.products = w.products ∧
    (∃ artifact : GoString,
      (handleDelivery queueName msg w).trace = w.trace ++
        [.received msg, .processImage msg.Body, .exec artifact 1,
         .publish (str "") (str "image_processing_retry") false false
           ⟨str "text/plain", msg.Body⟩,
         .nack msg.DeliveryTag false false]) ∧
    (∀ (other : Delivery) (v : World), str "fail" <:+: other.Body →
      (handleDelivery queueName other v).trace = v.trace ++
        [.received other, .processImage other.Body,
         .publish (str "") (str "image_processing_retry") false false
           ⟨str "text/plain", other.Body⟩,
         .nack other.DeliveryTag false false]) := by
  have hc : Contains msg.Body (str "fail") = false := by
    cases h : Contains msg.Body (str "fail") with
    | false => rfl
    | true => exact absurd ((Contains_iff _ _).mp h) hmarker
  refine ⟨?_, ?_, ⟨_, handleDelivery_storeError queueName msg w e hc hstore⟩, ?_⟩
  · rw [processImage_fst]
    simp [hc, hstore]
  · simp [processImage, updateCompressedImagesInDB, hc, hstore, World.emit]
  · intro other v hother
    exact handleDelivery_marker queueName other v ((Contains_iff _ _).mpr hother)

/-- Witness of C6: `"a.jpg"` in a world whose store refuses every `Exec`. -/
theorem handleDelivery_store_failure_witness :
    (processImage (str "a.jpg") brokenStoreWorld).1
      = some (errorsNew (str "connection refused")) ∧
    (handleDelivery (str "image_processing") ⟨1, str "a.jpg"⟩
        brokenStoreWorld).trace =
      [.received ⟨1, str "a.jpg"⟩, .processImage (str "a.jpg"),
       .exec (str "a-compressed.jpg") 1,
       .publish (str "") (str "image_processing_retry") false false
         ⟨str "text/plain", str "a.jpg"⟩,
       .nack 1 false false] := by
  obtain ⟨herr, _, _, _⟩ :=
    handleDelivery_store_failure (str "image_processing") ⟨1, str "a.jpg"⟩
      brokenStoreWorld (errorsNew (str "connection refused"))
      (by decide) (by decide)
  exact ⟨herr, by decide⟩

/-- Counterexample to C8. The body made of the lone byte `0xFF` is not
decodable text, yet the loop hands it to `processImage`, which stores it, and
the delivery is acked, not dead-lettered. More: no body at all, in no world,
is settled without a call of `processImage`, so no body is treated as
malformed. -/
theorem handleDelivery_processes_undecodable :
    (handleDelivery (str "image_processing") ⟨1, [255]⟩ quietWorld).trace =
      [.received ⟨1, [255]⟩, .processImage [255], .exec [255] 1,
       .ack 1 false] ∧
    ¬ ∃ (queueName : GoString) (msg : Delivery) (w : World),
        ((handleDelivery queueName msg w).trace.drop w.trace.length).countP
          Event.isProcessImage = 0 := by
  refine ⟨by decide, ?_⟩
  rintro ⟨queueName, msg, w, h⟩
  cases hp : (processImage msg.Body w).1 with
  | none =>
    obtain ⟨mid, htr, -⟩ := handleDelivery_succeeded queueName msg w hp
    rw [htr] at h
    simp [List.countP_cons, Event.isProcessImage] at h
  | some e =>
    obtain ⟨mid, htr, -⟩ := handleDelivery_failed queueName msg w (by simp [hp])
    rw [htr] at h
    simp [List.countP_cons, Event.isProcessImage] at h

/-- C8 as the code has it. The loop has no decode step: for every delivery,
whatever its bytes, the calls of its iteration are one of three exact
sequences, each entering `processImage` exactly once, on the body itself.
When `processImage` returns no error the sequence ends with `Ack(false)` on
the delivery, with no `Publish` and no `Nack`. When it returns an error
(marker in the body, or the store refused the append) the body is published
to the retry queue and only then the delivery gets `Nack(false, false)`, with
no `Ack`. No delivery is nacked without a call of `processImage` and a retry
publish before it. -/
theorem handleDelivery_always_processes (queueName : GoString) (msg : Delivery)
    (w : World) :
    ((processImage msg.Body w).1 = none ∧
      (handleDelivery queueName msg w).trace = w.trace ++
        [.received msg, .processImage msg.Body,
         .exec (Replace msg.Body (str ".") (str "-compressed.") 1) 1,
         .ack msg.DeliveryTag false]) ∨
    ((processImage msg.Body w).1 ≠ none ∧
      ((handleDelivery queueName msg w).trace = w.trace ++
        [.received msg, .processImage msg.Body,
         .publish (str "") (str "image_processing_retry") false false
           ⟨str "text/plain", msg.Body⟩,
         .nack msg.DeliveryTag false false] ∨
       (handleDelivery queueName msg w).trace = w.trace ++
        [.received msg, .processImage msg.Body,
         .exec (Replace msg.Body (str ".") (str "-compressed.") 1) 1,
         .publish (str "") (str "image_processing_retry") false false
           ⟨str "text/plain", msg.Body⟩,
         .nack msg.DeliveryTag false false])) := by
  by_cases hc : Contains msg.Body (str "fail") = true
  · refine Or.inr ⟨?_, Or.inl (handleDelivery_marker queueName msg w hc)⟩
    rw [processImage_fst]
    simp [hc]
  · have hc' : Contains msg.Body (str "fail") = false := by simpa using hc
    cases hs : w.execOutcome w.execCalls with
    | none =>
      refine Or.inl ⟨?_, handleDelivery_stored queueName msg w hc' hs⟩
      rw [processImage_fst]
      simp [hc', hs]
    | some e =>
      refine Or.inr ⟨?_, Or.inr (handleDelivery_storeError queueName msg w e hc' hs)⟩
      rw [processImage_fst]
      simp [hc', hs]

/-! ## The artifact append -/

/-- The row found after the `UPDATE` is the row found before, with the
reference appended. -/
theorem find_updateAppend (rows : List Product) (ref : GoString) (id : Nat) :
    (updateAppend rows ref id).find? (fun p => p.id = id) =
      (rows.find? (fun p => p.id = id)).map fun p =>
        { p with compressed_product_images :=
                   array_append p.compressed_product_images ref } := by
  induction rows with
  | nil => rfl
  | cons p rows ih =>
    unfold updateAppend at ih ⊢
    by_cases hp : p.id = id
    · simp [List.find?_cons, hp]
    · simp [List.find?_cons, hp, ih]

/-- The `UPDATE` adds the reference at the end of an existing row's array. -/
theorem imagesOf_updateAppend (rows : List Product) (ref : GoString) (id : Nat)
    (hrow : (rows.find? (fun p => p.id = id)).isSome = true) :
    imagesOf (updateAppend rows ref id) id = imagesOf rows id ++ [ref] := by
  unfold imagesOf
  rw [find_updateAppend]
  cases h : rows.find? (fun p => p.id = id) with
  | none => simp [h] at hrow
  | some p => simp [array_append]

/-- The `UPDATE` neither creates nor removes the row. -/
theorem find_updateAppend_isSome (rows : List Product) (ref : GoString) (id : Nat) :
    ((updateAppend rows ref id).find? (fun p => p.id = id)).isSome
      = (rows.find? (fun p => p.id = id)).isSome := by
  rw [find_updateAppend]
  cases rows.find? (fun p => p.id = id) <;> rfl

/-- Counterexample to C7. Product 1 has no compressed image; appending
`"a-compressed.jpg"` twice leaves two entries, appending it once leaves one. -/
theorem append_twice_differs_from_once :
    imagesOf (updateCompressedImagesInDB (str "a-compressed.jpg")
        (updateCompressedImagesInDB (str "a-compressed.jpg")
          quietWorld).2).2.products 1
      = [str "a-compressed.jpg", str "a-compressed.jpg"] ∧
    imagesOf (updateCompressedImagesInDB (str "a-compressed.jpg")
        quietWorld).2.products 1
      = [str "a-compressed.jpg"] ∧
    imagesOf (updateCompressedImagesInDB (str "a-compressed.jpg")
        (updateCompressedImagesInDB (str "a-compressed.jpg")
          quietWorld).2).2.products 1
      ≠ imagesOf (updateCompressedImagesInDB (str "a-compressed.jpg")
          quietWorld).2.products 1 := by decide

/-- C7 as the code has it. The success side effect is a plain
`array_append`, with no check for an entry already there: when product 1
exists and both `Exec` calls succeed, one application adds the reference at
the end of the collection and a second application adds it again, so the
collection ends with two copies of it. -/
theorem append_twice_adds_two (compressedImageURL : GoString) (w : World)
    (hfirst : w.execOutcome w.execCalls = none)
    (hsecond : w.execOutcome (w.execCalls + 1) = none)
    (hrow : (w.products.find? (fun p => p.id = 1)).isSome = true) :
    imagesOf (updateCompressedImagesInDB compressedImageURL w).2.products 1
      = imagesOf w.products 1 ++ [compressedImageURL] ∧
    imagesOf (updateCompressedImagesInDB compressedImageURL
        (updateCompressedImagesInDB compressedImageURL w).2).2.products 1
      = imagesOf w.products 1 ++ [compressedImageURL, compressedImageURL] := by
  have h1 : (updateCompressedImagesInDB compressedImageURL w).2.products
      = updateAppend w.products compressedImageURL 1 := by
    simp [updateCompressedImagesInDB, hfirst, World.emit]
  have h2 : (updateCompressedImagesInDB compressedImageURL
        (updateCompressedImagesInDB compressedImageURL w).2).2.products
      = updateAppend (updateAppend w.products compressedImageURL 1)
          compressedImageURL 1 := by
    simp [updateCompressedImagesInDB, hfirst, hsecond, World.emit]
  have hrow' : ((updateAppend w.products compressedImageURL 1).find?
      (fun p => p.id = 1)).isSome = true := by
    rw [find_updateAppend_isSome]; exact hrow
  constructor
  · rw [h1, imagesOf_updateAppend _ _ _ hrow]
  · rw [h2, imagesOf_updateAppend _ _ _ hrow', imagesOf_updateAppend _ _ _ hrow]
    simp

/-- Witness of the theorem on C7 in the quiet world. -/
theorem append_twice_adds_two_witness :
    imagesOf (updateCompressedImagesInDB (str "a-compressed.jpg")
        quietWorld).2.products 1
      = imagesOf quietWorld.products 1 ++ [str "a-compressed.jpg"] ∧
    imagesOf (updateCompressedImagesInDB (str "a-compressed.jpg")
        (updateCompressedImagesInDB (str "a-compressed.jpg")
          quietWorld).2).2.products 1
      = imagesOf quietWorld.products 1
          ++ [str "a-compressed.jpg", str "a-compressed.jpg"] :=
  append_twice_adds_two (str "a-compressed.jpg") quietWorld
    (by decide) (by decide) (by decide)

/-! ## The write path -/

/-- After a successful `Del` of a key, `Get` of that key misses. -/
theorem redisGet_after_del (key : GoString) (w : ApiWorld) (h : w.delErr = none) :
    redisGet key (redisDel key w).2 = none := by
  unfold redisGet redisDel ApiWorld.emit
  simp only [h, Option.map_eq_none', List.find?_eq_none]
  intro kv hkv
  have := (List.mem_filter.mp hkv).2
  simpa using this

/-- The three outcomes of the `PUT` handler once the body is bound. -/
theorem putProduct_spec (productID : GoString) (w : ApiWorld) :
    (w.execErr = none → w.delErr = none →
      (putProduct productID none w).trace = w.trace ++
        [.dbExec .updateProducts productID,
         .redisDel (str "product:" ++ productID),
         .respond 200 (str "Product updated successfully")] ∧
      redisGet (str "product:" ++ productID) (putProduct productID none w)
        = none) ∧
    (w.execErr = none → w.delErr ≠ none →
      (putProduct productID none w).trace = w.trace ++
        [.dbExec .updateProducts productID,
         .redisDel (str "product:" ++ productID),
         .logPrintf (str "Failed to invalidate cache for product"),
         .respond 200 (str "Product updated successfully")] ∧
      (putProduct productID none w).cache = w.cache) ∧
    (w.execErr ≠ none →
      (putProduct productID none w).trace = w.trace ++
        [.dbExec .updateProducts productID,
         .respond 500 (str "Failed to update product")] ∧
      (putProduct productID none w).cache = w.cache) := by
  refine ⟨?_, ?_, ?_⟩
  · intro he hd
    have hg := redisGet_after_del (str "product:" ++ productID)
      (w.emit (.dbExec .updateProducts productID)) hd
    constructor
    · simp [putProduct, redisDel, ApiWorld.emit, he, hd]
    · simpa [putProduct, redisDel, ApiWorld.emit, he, hd] using hg
  · intro he hd
    obtain ⟨e, hd⟩ := Option.ne_none_iff_exists'.mp hd
    simp [putProduct, redisDel, ApiWorld.emit, he, hd]
  · intro he
    obtain ⟨e, he⟩ := Option.ne_none_iff_exists'.mp he
    simp [putProduct, ApiWorld.emit, he]

/-- The three outcomes of the `DELETE` handler. -/
theorem deleteProduct_spec (productID : GoString) (w : ApiWorld) :
    (w.execErr = none → w.delErr = none →
      (deleteProduct productID w).trace = w.trace ++
        [.dbExec .deleteFromProducts productID,
         .redisDel (str "product:" ++ productID),
         .respond 200 (str "Product deleted successfully")] ∧
      redisGet (str "product:" ++ productID) (deleteProduct productID w)
        = none) ∧
    (w.execErr = none → w.delErr ≠ none →
      (deleteProduct productID w).trace = w.trace ++
        [.dbExec .deleteFromProducts productID,
         .redisDel (str "product:" ++ productID),
         .logPrintf (str "Failed to invalidate cache for product"),
         .respond 200 (str "Product deleted successfully")] ∧
      (deleteProduct productID w).cache = w.cache) ∧
    (w.execErr ≠ none →
      (deleteProduct productID w).trace = w.trace ++
        [.dbExec .deleteFromProducts productID,
         .respond 500 (str "Failed to delete product")] ∧
      (deleteProduct productID w).cache = w.cache) := by
  refine ⟨?_, ?_, ?_⟩
  · intro he hd
    have hg := redisGet_after_del (str "product:" ++ productID)
      (w.emit (.dbExec .deleteFromProducts productID)) hd
    constructor
    · simp [deleteProduct, redisDel, ApiWorld.emit, he, hd]
    · simpa [deleteProduct, redisDel, ApiWorld.emit, he, hd] using hg
  · intro he hd
    obtain ⟨e, hd⟩ := Option.ne_none_iff_exists'.mp hd
    simp [deleteProduct, redisDel, ApiWorld.emit, he, hd]
  · intro he
    obtain ⟨e, he⟩ := Option.ne_none_iff_exists'.mp he
    simp [deleteProduct, ApiWorld.emit, he]

/-- C9 as the code has it. In both write handlers, for every product id:
after a successful mutation `Del` is called exactly once on
`"product:" + id`, before the 200 response; when `Del` succeeds a following
`Get` of that key misses; when `Del` fails the failure is logged, the 200
response is written all the same and the cache is as before. After a failed
mutation the response is 500, `Del` is not called and the cache is as
before. -/
theorem write_handlers_invalidate (productID : GoString) (w : ApiWorld) :
    ((w.execErr = none → w.delErr = none →
      (putProduct productID none w).trace = w.trace ++
        [.dbExec .updateProducts productID,
         .redisDel (str "product:" ++ productID),
         .respond 200 (str "Product updated successfully")] ∧
      redisGet (str "product:" ++ productID) (putProduct productID none w)
        = none) ∧
    (w.execErr = none → w.delErr ≠ none →
      (putProduct productID none w).trace = w.trace ++
        [.dbExec .updateProducts productID,
         .redisDel (str "product:" ++ productID),
         .logPrintf (str "Failed to invalidate cache for product"),
         .respond 200 (str "Product updated successfully")] ∧
      (putProduct productID none w).cache = w.cache) ∧
    (w.execErr ≠ none →
      (putProduct productID none w).trace = w.trace ++
        [.dbExec .updateProducts productID,
         .respond 500 (str "Failed to update product")] ∧
      (putProduct productID none w).cache = w.cache)) ∧
    ((w.execErr = none → w.delErr = none →
      (deleteProduct productID w).trace = w.trace ++
        [.dbExec .deleteFromProducts productID,
         .redisDel (str "product:" ++ productID),
         .respond 200 (str "Product deleted successfully")] ∧
      redisGet (str "product:" ++ productID) (deleteProduct productID w)
        = none) ∧
    (w.execErr = none → w.delErr ≠ none →
      (deleteProduct productID w).trace = w.trace ++
        [.dbExec .deleteFromProducts productID,
         .redisDel (str "product:" ++ productID),
         .logPrintf (str "Failed to invalidate cache for product"),
         .respond 200 (str "Product deleted successfully")] ∧
      (deleteProduct productID w).cache = w.cache) ∧
    (w.execErr ≠ none →
      (deleteProduct productID w).trace = w.trace ++
        [.dbExec .deleteFromProducts productID,
         .respond 500 (str "Failed to delete product")] ∧
      (deleteProduct productID w).cache = w.cache)) :=
  ⟨putProduct_spec productID w, deleteProduct_spec productID w⟩

/-- Witness of the theorem on C9: product `"7"` with a cached entry, updated
while Redis works, and deleted while Redis is down. -/
theorem write_handlers_invalidate_witness :
    ((putProduct (str "7") none freshWorld).trace = freshWorld.trace ++
        [.dbExec .updateProducts (str "7"),
         .redisDel (str "product:" ++ str "7"),
         .respond 200 (str "Product updated successfully")] ∧
      redisGet (str "product:" ++ str "7") (putProduct (str "7") none freshWorld)
        = none) ∧
    ((deleteProduct (str "7") staleWorld).trace = staleWorld.trace ++
        [.dbExec .deleteFromProducts (str "7"),
         .redisDel (str "product:" ++ str "7"),
         .logPrintf (str "Failed to invalidate cache for product"),
         .respond 200 (str "Product deleted successfully")] ∧
      (deleteProduct (str "7") staleWorld).cache = staleWorld.cache) :=
  ⟨(write_handlers_invalidate (str "7") freshWorld).1.1 rfl rfl,
   (write_handlers_invalidate (str "7") staleWorld).2.2.1 rfl (by decide)⟩

/-- Counterexample to C9: product `"7"` is cached and Redis refuses `Del`.
The mutation succeeds, the handler answers 200, and a following `Get` of
`"product:7"` still hits the old entry, after `PUT` and after `DELETE`. -/
theorem write_handlers_leave_stale_entry :
    (putProduct (str "7") none staleWorld).trace =
      [.dbExec .updateProducts (str "7"), .redisDel (str "product:7"),
       .logPrintf (str "Failed to invalidate cache for product"),
       .respond 200 (str "Product updated successfully")] ∧
    redisGet (str "product:7") (putProduct (str "7") none staleWorld)
      = some (str "cached") ∧
    (deleteProduct (str "7") staleWorld).trace =
      [.dbExec .deleteFromProducts (str "7"), .redisDel (str "product:7"),
       .logPrintf (str "Failed to invalidate cache for product"),
       .respond 200 (str "Product deleted successfully")] ∧
    redisGet (str "product:7") (deleteProduct (str "7") staleWorld)
      = some (str "cached") := by decide

/-! ## Broker topology and retry cycles -/

/-- The three queue names differ, and the default exchange is the empty
name. -/
theorem queue_names_distinct :
    str "image_processing_dlx" ≠ str "image_processing_retry" ∧
    str "image_processing_dlx" ≠ str "image_processing" ∧
    str "image_processing_retry" ≠ str "image_processing" ∧
    str "image_processing_retry" ≠ str "image_processing_dlx" ∧
    str "image_processing" ≠ str "image_processing_dlx" ∧
    str "image_processing" ≠ str "image_processing_retry" ∧
    str "" = [] := by decide

/-- A publish to the retry queue through the default exchange. -/
theorem topology_publish_retry (m r d : List GoString) (body : GoString) :
    (topology m r d).route (str "") (str "image_processing_retry") body
      = topology m (r ++ [body]) d := by
  obtain ⟨h1, h2, h3, h4, h5, h6, h7⟩ := queue_names_distinct
  simp [topology, Broker.route, Broker.enqueue, h1, h2, h3, h4, h5, h6, h7]

/-- A message rejected on the main queue goes to the dead-letter queue. -/
theorem topology_reject_main (m r d : List GoString) (body : GoString) :
    (topology m r d).deadLetter (str "image_processing") body
      = topology m r (d ++ [body]) := by
  obtain ⟨h1, h2, h3, h4, h5, h6, h7⟩ := queue_names_distinct
  simp [topology, Broker.deadLetter, Broker.route, Broker.enqueue, List.find?_cons,
    h1, h2, h3, h4, h5, h6, h7]

/-- Delivery takes the oldest message of the main queue. -/
theorem topology_deliver_main (m r d : List GoString) (body : GoString) :
    (topology (body :: m) r d).deliver (str "image_processing")
      = some (body, topology m r d) := by
  obtain ⟨h1, h2, h3, h4, h5, h6, h7⟩ := queue_names_distinct
  simp [topology, Broker.deliver, Broker.messagesOf, List.find?_cons,
    h1, h2, h3, h4, h5, h6, h7]

/-- A message expiring in the retry queue goes back to the main queue. -/
theorem topology_expire_one (m d : List GoString) (body : GoString) :
    (topology m [body] d).expire (str "image_processing_retry")
      = topology (m ++ [body]) [] d := by
  obtain ⟨h1, h2, h3, h4, h5, h6, h7⟩ := queue_names_distinct
  simp [topology, Broker.expire, Broker.deadLetter, Broker.route, Broker.enqueue,
    List.find?_cons, h1, h2, h3, h4, h5, h6, h7]

/-- The channel state depends on the publish history only. -/
theorem channelClosed_congr (v w : World)
    (ho : v.publishOutcome = w.publishOutcome)
    (hn : v.publishCalls = w.publishCalls) :
    v.channelClosed = w.channelClosed := by
  unfold World.channelClosed
  rw [ho, hn]

/-- The part of the world `processImage` never touches: the broker and the publish
history. -/
theorem processImage_frame (imageURL : GoString) (w : World) :
    (processImage imageURL w).2.broker = w.broker ∧
    (processImage imageURL w).2.publishOutcome = w.publishOutcome ∧
    (processImage imageURL w).2.publishCalls = w.publishCalls := by
  unfold processImage updateCompressedImagesInDB World.emit
  by_cases hc : Contains imageURL (str "fail") = true
  · simp [hc]
  · simp only [hc]
    cases h : w.execOutcome w.execCalls <;> simp

/-- A `Publish` that succeeds on an open channel: the broker routes the
message and the channel stays open. -/
theorem ChannelPublish_open (exchange key : GoString)
    (mandatory immediate : Bool) (msg : Publishing) (w : World)
    (hopen : w.channelClosed = false)
    (hp : w.publishOutcome w.publishCalls = none) :
    (ChannelPublish exchange key mandatory immediate msg w).2.broker
      = w.broker.route exchange key msg.Body ∧
    (ChannelPublish exchange key mandatory immediate msg w).2.publishOutcome
      = w.publishOutcome ∧
    (ChannelPublish exchange key mandatory immediate msg w).2.publishCalls
      = w.publishCalls + 1 ∧
    (ChannelPublish exchange key mandatory immediate msg w).2.channelClosed
      = false := by
  have hstep : (List.range (w.publishCalls + 1)).any
      (fun k => (w.publishOutcome k).isSome) = false := by
    rw [List.range_succ, List.any_append]
    have : (List.range w.publishCalls).any
        (fun k => (w.publishOutcome k).isSome) = false := hopen
    simp [this, hp]
  unfold ChannelPublish
  simp only [hopen, hp, World.emit]
  exact ⟨rfl, rfl, rfl, hstep⟩

/-- A `Nack` without requeue on an open channel dead-letters the message. -/
theorem Nack_open (queueName : GoString) (msg : Delivery) (multiple : Bool)
    (w : World) (hopen : w.channelClosed = false) :
    (Delivery.Nack queueName msg multiple false w).broker
      = w.broker.deadLetter queueName msg.Body ∧
    (Delivery.Nack queueName msg multiple false w).publishOutcome
      = w.publishOutcome ∧
    (Delivery.Nack queueName msg multiple false w).publishCalls
      = w.publishCalls := by
  have hemit : (w.emit (.nack msg.DeliveryTag multiple false)).channelClosed
      = false := hopen
  unfold Delivery.Nack
  simp only [hemit]
  exact ⟨rfl, rfl, rfl⟩

/-- What a failed delivery does to the broker and to the publish counter, on
an open channel with a succeeding `Publish`. -/
theorem handleDelivery_broker_failed (queueName : GoString) (msg : Delivery) (w : World)
    (hfail : (processImage msg.Body w).1 ≠ none)
    (hopen : w.channelClosed = false)
    (hp : w.publishOutcome w.publishCalls = none) :
    (handleDelivery queueName msg w).broker =
      (w.broker.route (str "") (str "image_processing_retry")
        msg.Body).deadLetter queueName msg.Body ∧
    (handleDelivery queueName msg w).publishOutcome = w.publishOutcome ∧
    (handleDelivery queueName msg w).publishCalls = w.publishCalls + 1 := by
  have hfst : (processImage msg.Body (w.emit (.received msg))).1
      = (processImage msg.Body w).1 := by
    rw [processImage_fst, processImage_fst]; rfl
  obtain ⟨e, he⟩ := Option.ne_none_iff_exists'.mp hfail
  obtain ⟨hb1, ho1, hn1⟩ := processImage_frame msg.Body (w.emit (.received msg))
  have hproc : processImage msg.Body (w.emit (.received msg))
      = (some e, (processImage msg.Body (w.emit (.received msg))).2) := by
    rw [← he, ← hfst]
  have hopen1 : (processImage msg.Body (w.emit (.received msg))).2.channelClosed
      = false := by
    rw [channelClosed_congr _ w ho1 hn1]; exact hopen
  have hp1 : (processImage msg.Body (w.emit (.received msg))).2.publishOutcome
      (processImage msg.Body (w.emit (.received msg))).2.publishCalls = none := by
    rw [ho1, hn1]; exact hp
  obtain ⟨hb2, ho2, hn2, hopen2⟩ := ChannelPublish_open (str "")
    (str "image_processing_retry") false false ⟨str "text/plain", msg.Body⟩
    _ hopen1 hp1
  obtain ⟨hb3, ho3, hn3⟩ := Nack_open queueName msg false _ hopen2
  rw [handleDelivery_of_failed queueName msg w e _ hproc]
  refine ⟨?_, ?_, ?_⟩
  · rw [hb3, hb2, hb1]; rfl
  · rw [ho3, ho2, ho1]; rfl
  · rw [hn3, hn2, hn1]; rfl

/-- C10 as the code has it. `InitQueue` on a fresh broker yields the three
queues of `topology`. On that topology, for a delivery from the main queue
whose processing fails, while the channel is open and the retry `Publish`
succeeds, `Nack(false, false)` dead-letters the message from the main queue
straight to `"image_processing_dlx"`, as the main queue's
`x-dead-letter-routing-key` says: afterwards the dead-letter queue holds one
more copy of the body and the retry queue holds one more copy of it. -/
theorem nack_dead_letters_directly (msg : Delivery) (w : World)
    (m r d : List GoString)
    (hfail : (processImage msg.Body w).1 ≠ none)
    (hbroker : w.broker = topology m r d)
    (hopen : w.channelClosed = false)
    (hpublish : w.publishOutcome w.publishCalls = none) :
    InitQueue ⟨[]⟩ = some (topology [] [] []) ∧
    (handleDelivery (str "image_processing") msg w).broker
      = topology m (r ++ [msg.Body]) (d ++ [msg.Body]) := by
  obtain ⟨hb, -, -⟩ := handleDelivery_broker_failed (str "image_processing")
    msg w hfail hopen hpublish
  refine ⟨by decide, ?_⟩
  rw [hb, hbroker, topology_publish_retry, topology_reject_main]

/-- Witness of the theorem on C10: `"fail.jpg"` delivered from the main
queue of the freshly declared topology, in the quiet world. -/
theorem nack_dead_letters_directly_witness :
    InitQueue ⟨[]⟩ = some (topology [] [] []) ∧
    (handleDelivery (str "image_processing") ⟨1, str "fail.jpg"⟩
        quietWorld).broker
      = topology [] ([] ++ [str "fail.jpg"]) ([] ++ [str "fail.jpg"]) :=
  nack_dead_letters_directly ⟨1, str "fail.jpg"⟩ quietWorld [] [] []
    (by decide) rfl (by decide) (by decide)

/-- Counterexample to C10. On the topology `InitQueue` declares, the failing
delivery `"fail.jpg"` from the main queue ends, after the retry publish and
the nack, with one copy in the retry queue and one copy in the dead-letter
queue `"image_processing_dlx"`, not none. -/
theorem failed_delivery_reaches_dead_letter_queue :
    InitQueue ⟨[]⟩ = some quietWorld.broker ∧
    (handleDelivery (str "image_processing") ⟨1, str "fail.jpg"⟩
        quietWorld).broker.messagesOf (str "image_processing_retry")
      = [str "fail.jpg"] ∧
    (handleDelivery (str "image_processing") ⟨1, str "fail.jpg"⟩
        quietWorld).broker.messagesOf (str "image_processing_dlx")
      = [str "fail.jpg"] := by decide

/-- One round on an always-failing item alone in the main queue. -/
theorem retryCycle_marker (tag : Nat) (body : GoString) (w : World) (d : List GoString)
    (hc : Contains body (str "fail") = true)
    (hopen : w.channelClosed = false)
    (hp : w.publishOutcome w.publishCalls = none)
    (hb : w.broker = topology [body] [] d) :
    (retryCycle tag w).broker = topology [body] [] (d ++ [body]) ∧
    (retryCycle tag w).trace = w.trace ++
      [.received ⟨tag, body⟩, .processImage body,
       .publish (str "") (str "image_processing_retry") false false
         ⟨str "text/plain", body⟩,
       .nack tag false false] ∧
    (retryCycle tag w).publishOutcome = w.publishOutcome ∧
    (retryCycle tag w).publishCalls = w.publishCalls + 1 := by
  have hfail : (processImage (Delivery.mk tag body).Body
      { w with broker := topology [] [] d }).1 ≠ none := by
    rw [processImage_fst]; simp [hc]
  obtain ⟨h1, h2, h3⟩ := handleDelivery_broker_failed (str "image_processing")
    ⟨tag, body⟩ { w with broker := topology [] [] d } hfail hopen hp
  have h4 := handleDelivery_marker (str "image_processing") ⟨tag, body⟩
    { w with broker := topology [] [] d } hc
  rw [topology_publish_retry, topology_reject_main] at h1
  unfold retryCycle
  rw [hb, topology_deliver_main]
  simp only [h1, h2, h3, h4]
  refine ⟨?_, trivial, trivial, trivial⟩
  simpa using topology_expire_one [] (d ++ [body]) body

/-- Any number of rounds on an always-failing item alone in the main queue. -/
theorem retryCycles_marker (n : Nat) (body : GoString) (w : World) (d : List GoString)
    (hc : Contains body (str "fail") = true)
    (hpub : ∀ k, w.publishOutcome k = none)
    (hbroker : w.broker = topology [body] [] d) :
    (retryCycles n w).broker = topology [body] [] (d ++ List.replicate n body) ∧
    (retryCycles n w).trace = w.trace ++
      (List.range n).flatMap (fun k =>
        [.received ⟨k + 1, body⟩, .processImage body,
         .publish (str "") (str "image_processing_retry") false false
           ⟨str "text/plain", body⟩,
         .nack (k + 1) false false]) ∧
    (retryCycles n w).publishOutcome = w.publishOutcome := by
  induction n with
  | zero => simp [retryCycles, hbroker]
  | succ n ih =>
    obtain ⟨hb, ht, ho⟩ := ih
    have hp : (retryCycles n w).publishOutcome (retryCycles n w).publishCalls = none := by
      rw [ho]; exact hpub _
    have hopen : (retryCycles n w).channelClosed = false := by
      unfold World.channelClosed
      rw [ho]
      simp [hpub]
    obtain ⟨h1, h2, h3, -⟩ := retryCycle_marker (n + 1) body (retryCycles n w)
      (d ++ List.replicate n body) hc hopen hp hb
    refine ⟨?_, ?_, ?_⟩
    · show (retryCycle (n + 1) (retryCycles n w)).broker = _
      rw [h1, List.replicate_succ', List.append_assoc]
    · show (retryCycle (n + 1) (retryCycles n w)).trace = _
      rw [h2, ht, List.range_succ, List.flatMap_append]
      simp
    · show (retryCycle (n + 1) (retryCycles n w)).publishOutcome = _
      rw [h3, ho]

/-- C4 as the code has it. The consumer keeps no attempt count and has no
`maxAttempts`: for a work item whose processing always fails (its payload
contains `"fail"`), when every `Publish` succeeds, each of any number `n` of
rounds (delivery from the main queue, failure, retry delay) publishes the
body to the retry queue once more and nacks without requeue; after `n`
rounds the item is ready in the main queue again, the retry queue is empty,
and the dead-letter queue has received `n` copies. -/
theorem retries_unbounded (n : Nat) (body : GoString) (w : World)
    (d : List GoString)
    (hmarker : str "fail" <:+: body)
    (hpub : ∀ k, w.publishOutcome k = none)
    (hbroker : w.broker = topology [body] [] d) :
    (retryCycles n w).broker
      = topology [body] [] (d ++ List.replicate n body) ∧
    (retryCycles n w).trace = w.trace ++
      (List.range n).flatMap (fun k =>
        [.received ⟨k + 1, body⟩, .processImage body,
         .publish (str "") (str "image_processing_retry") false false
           ⟨str "text/plain", body⟩,
         .nack (k + 1) false false]) := by
  obtain ⟨hb, ht, -⟩ := retryCycles_marker n body w d
    ((Contains_iff _ _).mpr hmarker) hpub hbroker
  exact ⟨hb, ht⟩

/-- Witness of the theorem on C4: three rounds of `"fail.jpg"`. -/
theorem retries_unbounded_witness :
    (retryCycles 3 failWorld).broker
      = topology [str "fail.jpg"] [] ([] ++ List.replicate 3 (str "fail.jpg")) ∧
    (retryCycles 3 failWorld).trace = failWorld.trace ++
      (List.range 3).flatMap (fun k =>
        [.received ⟨k + 1, str "fail.jpg"⟩, .processImage (str "fail.jpg"),
         .publish (str "") (str "image_processing_retry") false false
           ⟨str "text/plain", str "fail.jpg"⟩,
         .nack (k + 1) false false]) :=
  retries_unbounded 3 (str "fail.jpg") failWorld [] (by decide)
    (fun _ => rfl) rfl

/-- Counterexample to C4. After five rounds the always-failing item
`"fail.jpg"` is ready in the main queue once more (with five copies
dead-lettered), and there is no `maxAttempts` that bounds the number of
publishes to the retry queue over all numbers of rounds. -/
theorem retry_publishes_exceed_every_bound :
    (retryCycles 5 failWorld).broker
      = topology [str "fail.jpg"] [] (List.replicate 5 (str "fail.jpg")) ∧
    ¬ ∃ maxAttempts : Nat, ∀ n : Nat,
        (retryCycles n failWorld).trace.countP Event.isRetryPublish
          ≤ maxAttempts := by
  refine ⟨by decide, ?_⟩
  rintro ⟨maxAttempts, h⟩
  have hn := h (maxAttempts + 1)
  obtain ⟨-, ht, -⟩ := retryCycles_marker (maxAttempts + 1) (str "fail.jpg") failWorld []
    (by decide) (fun _ => rfl) rfl
  rw [ht] at hn
  have hcount : ∀ k : Nat, ((List.range k).flatMap (fun k =>
        [Event.received ⟨k + 1, str "fail.jpg"⟩, .processImage (str "fail.jpg"),
         .publish (str "") (str "image_processing_retry") false false
           ⟨str "text/plain", str "fail.jpg"⟩,
         .nack (k + 1) false false])).countP Event.isRetryPublish = k := by
    intro k
    induction k with
    | zero => rfl
    | succ k ih =>
      rw [List.range_succ, List.flatMap_append, List.countP_append, ih]
      simp [List.countP_cons, Event.isRetryPublish]
  have h0 : failWorld.trace = [] := rfl
  rw [h0, List.nil_append, hcount] at hn
  omega

end PMS
